import Mathlib

/-
  Shallow embedding of the macOS connection layer of the penrosx tiling
  window manager (src/conn.rs, src/win.rs, src/sys.rs), together with
  theorems about its behaviour.

  The operating system is modelled as a pure oracle (`Env`) that fixes the
  outcome of every OS call made during one operation: the list of running
  regular-activation applications, the on-screen window list, whether an
  accessibility handle resolves, the value of the AXEnhancedUserInterface
  flag and the success of each attribute write.  Each embedded operation
  returns its result, the updated connection state, and the ordered trace
  of OS and engine calls it performed.

  The penrose engine (an external library this crate plugs into) is
  abstracted as a client set plus a focus pointer; calls into it
  (manage, unmanage, focus via modify_and_refresh) are recorded in the
  trace and their success is drawn from the oracle.  Hash maps are
  modelled as insertion-ordered association lists, so "iteration order"
  is the order in which the OS reported the entries.
-/

/-- Process identifier, i32 in the source. -/
abbrev Pid := Int

/-- OS window number, u32 in the source (penrose WinId). -/
abbrev WinId := Nat

/-- Integer rectangle as in penrose pure geometry: i32 origin, u32 extent. -/
structure Rect where
  x : Int
  y : Int
  w : Nat
  h : Nat
deriving Repr, DecidableEq

/-- Integer point as in penrose pure geometry. -/
structure Point where
  x : Int
  y : Int
deriving Repr, DecidableEq

/-- Reinterpretation of a u32 value as i32 (the `as i32` cast in set_hide_pt). -/
def i32ofU32 (n : Nat) : Int :=
  if n < 2 ^ 31 then (n : Int) else (n : Int) - 2 ^ 32

/-- Errors of the penrose Error type that the connection layer produces. -/
inductive WmError where
  | unknownClient (id : WinId)
  | noScreens
  | custom (msg : String)
deriving Repr, DecidableEq

/-- Window record: OsxWindow from src/win.rs.  The AX handle is abstracted
to a numeric identity; observer registrations carry no data we track. -/
structure OsxWindow where
  win_id : WinId
  owner_pid : Pid
  window_layer : Int
  bounds : Rect
  owner : String
  window_name : Option String
  axwin : Nat
deriving Repr, DecidableEq

/-- Application record: OsxApp from src/win.rs.  Native handles and
observer registrations are abstracted away; behaviour of the AX calls made
through them lives in the environment oracle. -/
structure OsxApp where
  pid : Pid
  name : String
deriving Repr, DecidableEq

/-- Every OS or engine call an operation can perform, in order, with the
outcome the oracle assigned to it. -/
inductive OsCall where
  | refreshMaps
  | readEui (pid : Pid) (value : Bool)
  | writeEui (pid : Pid) (value : Bool) (ok : Bool)
  | setPos (id : WinId) (x y : Int) (ok : Bool)
  | setSize (id : WinId) (w h : Nat) (ok : Bool)
  | raiseWin (id : WinId) (ok : Bool)
  | activateApp (pid : Pid)
  | warpCursor (x y : Int) (ok : Bool)
  | copyCloseButton (id : WinId)
  | pressClose (button : Nat)
  | manage (id : WinId)
  | unmanage (id : WinId)
  | focusClient (id : WinId)
  | manageWithoutRefresh (id : WinId) (tag : Option String)
  | engineRefresh
deriving Repr, DecidableEq

/-- The OS oracle: fixed outcomes for every call an operation may make. -/
structure Env where
  runningApps : List Pid
  tryNewAppOk : Pid → Bool
  appName : Pid → String
  winList : List OsxWindow
  axResolvable : WinId → Bool
  euiEnabled : Pid → Bool
  setEuiOk : Pid → Bool → Bool
  setPosOk : WinId → Bool
  setSizeOk : WinId → Bool
  raiseOk : WinId → Bool
  displaysOk : Bool
  displays : List Rect
  warpCursorOk : Bool
  focusedAxWin : Pid → Option Nat
  manageOk : WinId → Bool
  unmanageOk : WinId → Bool
  modifyOk : Bool
  refreshOk : Bool

/-- Connection state: the two maps and the hide point (OsxConn fields,
minus the event channel receiver which carries no state we reason about). -/
structure OsxConn where
  apps : List (Pid × OsxApp)
  windows : List (WinId × OsxWindow)
  hide_pt : Point
deriving Repr, DecidableEq

/-- Engine model: the penrose client set, current client and screen layout
visible through the State handle the engine passes to the connection. -/
structure Engine where
  clientSet : List WinId
  current : Option WinId
  screens : List (Rect × String)
deriving Repr, DecidableEq

/-- Result of an operation that touches only the connection. -/
structure OpResult (α : Type) where
  res : Except WmError α
  conn : OsxConn
  trace : List OsCall
deriving Repr

/-- Result of an operation that also drives the engine. -/
structure EvResult where
  res : Except WmError Unit
  conn : OsxConn
  engine : Engine
  trace : List OsCall
deriving Repr

/-- Boolean membership for window ids. -/
def memNat (i : Nat) : List Nat → Bool
  | [] => false
  | j :: rest => j == i || memNat i rest

/-- Lookup in the window map (HashMap::get). -/
def lookupWin (ws : List (WinId × OsxWindow)) (id : WinId) : Option OsxWindow :=
  (ws.find? (fun p => p.1 == id)).map (fun p => p.2)

/-- Lookup in the application map (HashMap::get). -/
def lookupApp (apps : List (Pid × OsxApp)) (pid : Pid) : Option OsxApp :=
  (apps.find? (fun p => p.1 == pid)).map (fun p => p.2)

/-- HashMap::contains_key on the window map. -/
def containsWin (ws : List (WinId × OsxWindow)) (id : WinId) : Bool :=
  (lookupWin ws id).isSome

/-- In-place update of the entry for a key (mutation through a &mut borrow). -/
def setWin (ws : List (WinId × OsxWindow)) (id : WinId) (w : OsxWindow) :
    List (WinId × OsxWindow) :=
  ws.map (fun p => if p.1 == id then (id, w) else p)

/-- OsxWindow::current_windows: the on-screen, non-desktop window list,
keeping exactly the entries whose accessibility handle resolves
(get_axwindow returning None makes try_from_dict fail with the silently
skipped WindowNotFound error; other construction failures are also
skipped, after logging). -/
def currentWindows (env : Env) : List OsxWindow :=
  env.winList.filter (fun w => env.axResolvable w.win_id)

/-- Reconciliation of the app map inner loop: walk the current pids and
construct entries for those not yet present, skipping the pids whose
OsxApp::try_new fails. -/
def addNewApps (env : Env) : List Pid → List (Pid × OsxApp) → List (Pid × OsxApp)
  | [], acc => acc
  | pid :: rest, acc =>
    if (lookupApp acc pid).isSome then addNewApps env rest acc
    else if env.tryNewAppOk pid then
      addNewApps env rest (acc ++ [(pid, ⟨pid, env.appName pid⟩)])
    else addNewApps env rest acc

/-- OsxConn::update_known_apps_and_windows: retain apps still running,
construct entries for new pids (ignoring construction failures), and
rebuild the window map from the current on-screen list. -/
def updateKnownAppsAndWindows (env : Env) (c : OsxConn) : OsxConn :=
  let retained := c.apps.filter (fun p => p.1 ∈ env.runningApps)
  { c with
    apps := addNewApps env env.runningApps retained
    windows := (currentWindows env).map (fun w => (w.win_id, w)) }

/-- OsxConn::win_prop: read a projection of a window, refreshing once on a
miss before yielding UnknownClient. -/
def winProp {α : Type} (env : Env) (c : OsxConn) (id : WinId)
    (f : OsxWindow → α) : OpResult α :=
  let c1 := if containsWin c.windows id then c else updateKnownAppsAndWindows env c
  let t0 : List OsCall := if containsWin c.windows id then [] else [OsCall.refreshMaps]
  match lookupWin c1.windows id with
  | some w => ⟨Except.ok (f w), c1, t0⟩
  | none => ⟨Except.error (WmError.unknownClient id), c1, t0⟩

/-- Stable ascending insertion by x coordinate. -/
def insertByX (r : Rect) : List Rect → List Rect
  | [] => [r]
  | s :: rest => if r.x ≤ s.x then r :: s :: rest else s :: insertByX r rest

/-- Stable sort of the display list by ascending x (sort_by_key). -/
def sortByX (l : List Rect) : List Rect :=
  l.foldr insertByX []

/-- Conn::screen_details for OsxConn: enumerate active displays, convert the
bounds, and sort left to right by x. -/
def screenDetails (env : Env) : Except WmError (List Rect) :=
  if env.displaysOk then Except.ok (sortByX env.displays)
  else Except.error (WmError.custom ("error reading cg displays"))

/-- OsxConn::set_hide_pt: take the last display of screen_details, fail
with NoScreens when there is none, and store the point one pixel inside
its bottom-right corner. -/
def setHidePt (env : Env) (c : OsxConn) : Except WmError Unit × OsxConn :=
  match screenDetails env with
  | Except.error e => (Except.error e, c)
  | Except.ok rs =>
    match rs.getLast? with
    | none => (Except.error WmError.noScreens, c)
    | some r =>
      (Except.ok (),
       { c with hide_pt := ⟨r.x + i32ofU32 r.w - 1, r.y + i32ofU32 r.h - 1⟩ })

/-- OsxConn::with_suppressed_animations: locate the window (refreshing once
on a miss), locate its owning app, read the AXEnhancedUserInterface flag,
disable it when set (remembering not to re-enable if that very write
fails), run the inner operation, then re-enable the flag on a best-effort
basis and hand back the inner result. -/
def withSuppressedAnimations (env : Env) (c : OsxConn) (id : WinId)
    (f : OsxWindow → Except WmError Unit × OsxWindow × List OsCall) :
    OpResult Unit :=
  let c1 := if containsWin c.windows id then c else updateKnownAppsAndWindows env c
  let t0 : List OsCall := if containsWin c.windows id then [] else [OsCall.refreshMaps]
  match lookupWin c1.windows id with
  | none => ⟨Except.error (WmError.unknownClient id), c1, t0⟩
  | some win =>
    match lookupApp c1.apps win.owner_pid with
    | none => ⟨Except.error (WmError.custom ("unknown app pid")), c1, t0⟩
    | some _app =>
      let wasEnabled := env.euiEnabled win.owner_pid
      let disableOk := env.setEuiOk win.owner_pid false
      let t1 : List OsCall :=
        if wasEnabled then [OsCall.writeEui win.owner_pid false disableOk] else []
      let inner := f win
      let t3 : List OsCall :=
        if wasEnabled && disableOk then
          [OsCall.writeEui win.owner_pid true (env.setEuiOk win.owner_pid true)]
        else []
      ⟨inner.1, { c1 with windows := setWin c1.windows id inner.2.1 },
        t0 ++ OsCall.readEui win.owner_pid wasEnabled :: t1 ++ inner.2.2 ++ t3⟩

/-- Conn::position_client: under suppressed animations, write position then
size through the accessibility attributes, and cache the commanded bounds
only when both writes succeed. -/
def positionClient (env : Env) (c : OsxConn) (id : WinId) (r : Rect) :
    OpResult Unit :=
  withSuppressedAnimations env c id (fun win =>
    if env.setPosOk win.win_id then
      if env.setSizeOk win.win_id then
        (Except.ok (), { win with bounds := r },
         [OsCall.setPos win.win_id r.x r.y true, OsCall.setSize win.win_id r.w r.h true])
      else
        (Except.error (WmError.custom ("unable to set size attr")), win,
         [OsCall.setPos win.win_id r.x r.y true, OsCall.setSize win.win_id r.w r.h false])
    else
      (Except.error (WmError.custom ("unable to set position attr")), win,
       [OsCall.setPos win.win_id r.x r.y false]))

/-- Conn::hide_client: move the window to the cached hide point under
suppressed animations and update the cached x and y on success. -/
def hideClient (env : Env) (c : OsxConn) (id : WinId) : OpResult Unit :=
  let p := c.hide_pt
  withSuppressedAnimations env c id (fun win =>
    if env.setPosOk win.win_id then
      (Except.ok (), { win with bounds := { win.bounds with x := p.x, y := p.y } },
       [OsCall.setPos win.win_id p.x p.y true])
    else
      (Except.error (WmError.custom ("unable to set position attr")), win,
       [OsCall.setPos win.win_id p.x p.y false]))

/-- Conn::client_geometry: the cached bounds, via win_prop. -/
def clientGeometry (env : Env) (c : OsxConn) (id : WinId) : OpResult Rect :=
  winProp env c id (fun w => w.bounds)

/-- Conn::existing_clients: refresh, then return the window map keys. -/
def existingClients (env : Env) (c : OsxConn) : OpResult (List WinId) :=
  let c1 := updateKnownAppsAndWindows env c
  ⟨Except.ok (c1.windows.map (fun p => p.1)), c1, [OsCall.refreshMaps]⟩

/-- OsxWindow::close from src/win.rs.  The source initialises `button` to a
null pointer and passes it BY VALUE as the out-parameter of
AXUIElementCopyAttributeValue, so the copied close-button reference is
written through the null pointer and never reaches the local variable;
`button` is therefore still null at the check that follows, the error
branch is always taken, and the press action is never performed. -/
def OsxWindow.close (win : OsxWindow) : Except WmError Unit × List OsCall :=
  let button : Option Nat := none
  let t := [OsCall.copyCloseButton win.win_id]
  match button with
  | none => (Except.error (WmError.custom ("unable to get close button")), t)
  | some b => (Except.ok (), t ++ [OsCall.pressClose b])

/-- Conn::kill_client: locate the window (refreshing once on a miss,
yielding UnknownClient when still absent) and invoke close on it. -/
def killClient (env : Env) (c : OsxConn) (id : WinId) : OpResult Unit :=
  let c1 := if containsWin c.windows id then c else updateKnownAppsAndWindows env c
  let t0 : List OsCall := if containsWin c.windows id then [] else [OsCall.refreshMaps]
  match lookupWin c1.windows id with
  | none => ⟨Except.error (WmError.unknownClient id), c1, t0⟩
  | some win =>
    let r := win.close
    ⟨r.1, c1, t0 ++ r.2⟩

/-- Conn::focus_client: locate the window (refreshing once on a miss), then
unwrap the owning app entry - a None there is a panic, modelled as the
outer Option being none - raise the window and activate the app.  The two
AX calls behind raise (set_main then raise) are collapsed into one oracle
outcome. -/
def focusClient (env : Env) (c : OsxConn) (id : WinId) : Option (OpResult Unit) :=
  let c1 := if containsWin c.windows id then c else updateKnownAppsAndWindows env c
  let t0 : List OsCall := if containsWin c.windows id then [] else [OsCall.refreshMaps]
  match lookupWin c1.windows id with
  | none => some ⟨Except.error (WmError.unknownClient id), c1, t0⟩
  | some win =>
    match lookupApp c1.apps win.owner_pid with
    | none => none
    | some _app =>
      if env.raiseOk win.win_id then
        some ⟨Except.ok (), c1,
          t0 ++ [OsCall.raiseWin win.win_id true, OsCall.activateApp win.owner_pid]⟩
      else
        some ⟨Except.error (WmError.custom ("unable to raise window")), c1,
          t0 ++ [OsCall.raiseWin win.win_id false]⟩

/-- Conn::warp_pointer: for the root id warp to the absolute point; for any
other id read the cached bounds (via win_prop), warp relative to them, and
then focus the window (which can panic, hence the outer Option). -/
def warpPointer (env : Env) (c : OsxConn) (id : WinId) (x y : Int) :
    Option (OpResult Unit) :=
  if id == 0 then
    if env.warpCursorOk then some ⟨Except.ok (), c, [OsCall.warpCursor x y true]⟩
    else some ⟨Except.error (WmError.custom ("unable to warp cursor")), c,
      [OsCall.warpCursor x y false]⟩
  else
    let wp := winProp env c id (fun w => w.bounds)
    match wp.res with
    | Except.error e => some ⟨Except.error e, wp.conn, wp.trace⟩
    | Except.ok r =>
      if env.warpCursorOk then
        match focusClient env wp.conn id with
        | none => none
        | some fr =>
          match fr.res with
          | Except.error e =>
            some ⟨Except.error e, fr.conn,
              wp.trace ++ OsCall.warpCursor (r.x + x) (r.y + y) true :: fr.trace⟩
          | Except.ok _ =>
            some ⟨Except.ok (), fr.conn,
              wp.trace ++ OsCall.warpCursor (r.x + x) (r.y + y) true :: fr.trace⟩
      else
        some ⟨Except.error (WmError.custom ("unable to warp cursor")), wp.conn,
          wp.trace ++ [OsCall.warpCursor (r.x + x) (r.y + y) false]⟩

/-- Insertion into the engine client set (no duplicates). -/
def insertId (i : WinId) (l : List WinId) : List WinId :=
  if memNat i l then l else l ++ [i]

/-- Engine call sequence for a list of manage requests, as issued by the
source loops that call ConnExt::manage with the question-mark operator:
the loop stops at the first failing call. -/
def manageAll (env : Env) : List WinId → Engine → Except WmError Unit × Engine × List OsCall
  | [], eng => (Except.ok (), eng, [])
  | id :: rest, eng =>
    if env.manageOk id then
      let eng1 := { eng with clientSet := insertId id eng.clientSet }
      let r := manageAll env rest eng1
      (r.1, r.2.1, OsCall.manage id :: r.2.2)
    else (Except.error (WmError.custom ("manage failed")), eng, [OsCall.manage id])

/-- Engine call sequence for a list of unmanage requests, stopping at the
first failing call (ConnExt::unmanage with the question-mark operator). -/
def unmanageAll (env : Env) : List WinId → Engine → Except WmError Unit × Engine × List OsCall
  | [], eng => (Except.ok (), eng, [])
  | id :: rest, eng =>
    if env.unmanageOk id then
      let eng1 := { eng with
        clientSet := eng.clientSet.filter (fun j => !(j == id))
        current := if eng.current == some id then none else eng.current }
      let r := unmanageAll env rest eng1
      (r.1, r.2.1, OsCall.unmanage id :: r.2.2)
    else (Except.error (WmError.custom ("unmanage failed")), eng, [OsCall.unmanage id])

/-- ConnExt::modify_and_refresh applying StackSet::focus_client: the focus
moves when the client is in the set, then the engine refreshes. -/
def modifyRefreshFocus (env : Env) (eng : Engine) (id : WinId) :
    Except WmError Unit × Engine × List OsCall :=
  let eng1 := { eng with current := if memNat id eng.clientSet then some id else eng.current }
  if env.modifyOk then (Except.ok (), eng1, [OsCall.focusClient id])
  else (Except.error (WmError.custom ("refresh failed")), eng1, [OsCall.focusClient id])

/-- OsxConn::manage_new_windows loop body: manage each tracked window that
the engine does not yet contain. -/
def manageMissing (env : Env) : List WinId → Engine → Except WmError Unit × Engine × List OsCall
  | [], eng => (Except.ok (), eng, [])
  | id :: rest, eng =>
    if memNat id eng.clientSet then manageMissing env rest eng
    else if env.manageOk id then
      let eng1 := { eng with clientSet := insertId id eng.clientSet }
      let r := manageMissing env rest eng1
      (r.1, r.2.1, OsCall.manage id :: r.2.2)
    else (Except.error (WmError.custom ("manage failed")), eng, [OsCall.manage id])

/-- OsxConn::win_id_for_axwin: linear scan of the window map values for a
matching accessibility handle. -/
def winIdForAxwin (c : OsxConn) (ax : Nat) : Option WinId :=
  (c.windows.find? (fun p => p.2.axwin == ax)).map (fun p => p.2.win_id)

/-- The window ids removed by clear_terminated_app_state: values of the
window map whose owner matches the terminated pid. -/
def terminatedIds (c : OsxConn) (pid : Pid) : List WinId :=
  c.windows.filterMap (fun p => if p.2.owner_pid == pid then some p.2.win_id else none)

/-- OsxConn::clear_terminated_app_state: drop the app entry, collect and
drop the windows owned by the pid, then unmanage each collected id. -/
def clearTerminatedAppState (env : Env) (c : OsxConn) (eng : Engine) (pid : Pid) :
    EvResult :=
  let apps1 := c.apps.filter (fun p => !(p.1 == pid))
  let ids := terminatedIds c pid
  let windows1 := c.windows.filter (fun p => !(p.2.owner_pid == pid))
  let c1 := { c with apps := apps1, windows := windows1 }
  let r := unmanageAll env ids eng
  ⟨r.1, c1, r.2.1, r.2.2⟩

/-- OsxConn::clear_closed_window_state: drop the window entry and unmanage
the id in the engine. -/
def clearClosedWindowState (env : Env) (c : OsxConn) (eng : Engine) (id : WinId) :
    EvResult :=
  let c1 := { c with windows := c.windows.filter (fun p => !(p.1 == id)) }
  let r := unmanageAll env [id] eng
  ⟨r.1, c1, r.2.1, r.2.2⟩

/-- Last element of a non-empty id list (Iterator::last on a list known to
be non-empty; the default is never reached on the guarded path). -/
def lastId : List WinId → WinId
  | [] => 0
  | [a] => a
  | _ :: rest => lastId rest

/-- The new-window diff computed inside handle_new_window_for_pid: ids of
post-refresh windows owned by the pid that were not keys before. -/
def newWindowIds (env : Env) (c : OsxConn) (pid : Pid) : List WinId :=
  let oldIds := c.windows.map (fun p => p.1)
  (((updateKnownAppsAndWindows env c).windows.map (fun p => p.2)).filter
    (fun w => w.owner_pid == pid && !(memNat w.win_id oldIds))).map (fun w => w.win_id)

/-- OsxConn::handle_new_window_for_pid: snapshot the current ids, refresh,
diff; on an empty diff log and return Ok; otherwise manage every new id
and focus the last of them. -/
def handleNewWindowForPid (env : Env) (c : OsxConn) (eng : Engine) (pid : Pid) :
    EvResult :=
  let c1 := updateKnownAppsAndWindows env c
  let nw := newWindowIds env c pid
  if nw.isEmpty then ⟨Except.ok (), c1, eng, [OsCall.refreshMaps]⟩
  else
    let focus := lastId nw
    let r := manageAll env nw eng
    match r.1 with
    | Except.error e => ⟨Except.error e, c1, r.2.1, OsCall.refreshMaps :: r.2.2⟩
    | Except.ok _ =>
      let r2 := modifyRefreshFocus env r.2.1 focus
      ⟨r2.1, c1, r2.2.1, OsCall.refreshMaps :: r.2.2 ++ r2.2.2⟩

/-- OsxConn::focus_active_app_window: look the app up (refreshing once on a
miss and propagating a custom error when still absent), read its focused
accessibility window (skipping on failure), compare with the engine focus,
and when a different known window is focused, reconcile unmanaged windows
and instruct the engine to focus it. -/
def focusActiveAppWindow (env : Env) (c : OsxConn) (eng : Engine) (pid : Pid) :
    EvResult :=
  let hit := (lookupApp c.apps pid).isSome
  let c1 := if hit then c else updateKnownAppsAndWindows env c
  let t0 : List OsCall := if hit then [] else [OsCall.refreshMaps]
  match lookupApp c1.apps pid with
  | none => ⟨Except.error (WmError.custom ("unknown app pid")), c1, eng, t0⟩
  | some _a =>
    match env.focusedAxWin pid with
    | none => ⟨Except.ok (), c1, eng, t0⟩
    | some ax =>
      let maybeId := winIdForAxwin c1 ax
      if eng.current == maybeId then ⟨Except.ok (), c1, eng, t0⟩
      else
        match maybeId with
        | none => ⟨Except.ok (), c1, eng, t0⟩
        | some wid =>
          let ids := c1.windows.map (fun p => p.2.win_id)
          let r1 := manageMissing env ids eng
          match r1.1 with
          | Except.error e => ⟨Except.error e, c1, r1.2.1, t0 ++ r1.2.2⟩
          | Except.ok _ =>
            let r2 := modifyRefreshFocus env r1.2.1 wid
            ⟨r2.1, c1, r2.2.1, t0 ++ r1.2.2 ++ r2.2.2⟩

/-- The connection event stream (Event from src/sys.rs; the source keeps
the Miniturized spelling). -/
inductive Event where
  | appActivated (pid : Pid)
  | appDeactivated (pid : Pid)
  | appLaunched (pid : Pid)
  | appTerminated (pid : Pid)
  | appHidden (pid : Pid)
  | appUnhidden (pid : Pid)
  | windowCreated (pid : Pid)
  | focusedWindowChanged (pid : Pid)
  | uiElementDestroyed (id : WinId)
  | windowMiniturized (id : WinId)
  | windowDeminiturized (id : WinId)
  | windowMoved (id : WinId)
  | windowResized (id : WinId)
deriving Repr, DecidableEq

/-- Conn::handle_event dispatch for OsxConn (key presses dispatch to
external user bindings and are not part of the source Event enum). -/
def handleEvent (env : Env) (c : OsxConn) (eng : Engine) : Event → EvResult
  | Event.appActivated pid => focusActiveAppWindow env c eng pid
  | Event.appLaunched pid => focusActiveAppWindow env c eng pid
  | Event.focusedWindowChanged pid => focusActiveAppWindow env c eng pid
  | Event.appHidden _ => ⟨Except.ok (), c, eng, []⟩
  | Event.appTerminated pid => clearTerminatedAppState env c eng pid
  | Event.appUnhidden _ => ⟨Except.ok (), c, eng, []⟩
  | Event.uiElementDestroyed id => clearClosedWindowState env c eng id
  | Event.windowCreated pid => handleNewWindowForPid env c eng pid
  | Event.windowDeminiturized _ => ⟨Except.ok (), c, eng, []⟩
  | Event.windowMiniturized _ => ⟨Except.ok (), c, eng, []⟩
  | Event.windowMoved _ => ⟨Except.ok (), c, eng, []⟩
  | Event.windowResized _ => ⟨Except.ok (), c, eng, []⟩
  | Event.appDeactivated _ => ⟨Except.ok (), c, eng, []⟩

/-- Midpoint of a rectangle (penrose pure geometry, external library). -/
def Rect.midpoint (r : Rect) : Point :=
  ⟨r.x + (r.w : Int) / 2, r.y + (r.h : Int) / 2⟩

/-- Point containment for a rectangle (penrose pure geometry, external
library); only the choice of workspace tag depends on it. -/
def rectContainsPoint (r : Rect) (p : Point) : Bool :=
  decide (r.x ≤ p.x) && decide (p.x < r.x + (r.w : Int)) &&
  decide (r.y ≤ p.y) && decide (p.y < r.y + (r.h : Int))

/-- Conn::client_should_be_managed: layer zero check through win_prop,
falling back to false on a lookup miss (unwrap_or_default). -/
def clientShouldBeManagedOp (env : Env) (c : OsxConn) (id : WinId) :
    Bool × OsxConn × List OsCall :=
  let r := winProp env c id (fun w => w.window_layer == 0)
  match r.res with
  | Except.ok b => (b, r.conn, r.trace)
  | Except.error _ => (false, r.conn, r.trace)

/-- Loop body of manage_existing_clients: for each id not yet managed whose
layer is zero, choose the workspace whose screen contains the midpoint and
call manage_without_refresh (external penrose helper, recorded as an
engine call; short-circuits on failure through the question-mark
operator). -/
def manageExistingLoop (env : Env) :
    List (WinId × Point) → OsxConn → Engine →
    Except WmError Unit × OsxConn × Engine × List OsCall
  | [], c, eng => (Except.ok (), c, eng, [])
  | (id, p) :: rest, c, eng =>
    if memNat id eng.clientSet then manageExistingLoop env rest c eng
    else
      let sb := clientShouldBeManagedOp env c id
      if sb.1 then
        let tag := (eng.screens.find? (fun s => rectContainsPoint s.1 p)).map (fun s => s.2)
        if env.manageOk id then
          let eng1 := { eng with clientSet := insertId id eng.clientSet }
          let r := manageExistingLoop env rest sb.2.1 eng1
          (r.1, r.2.1, r.2.2.1, sb.2.2 ++ OsCall.manageWithoutRefresh id tag :: r.2.2.2)
        else
          (Except.error (WmError.custom ("manage failed")), sb.2.1, eng,
           sb.2.2 ++ [OsCall.manageWithoutRefresh id tag])
      else
        let r := manageExistingLoop env rest sb.2.1 eng
        (r.1, r.2.1, r.2.2.1, sb.2.2 ++ r.2.2.2)

/-- Conn::manage_existing_clients: refresh, collect ids and bound
midpoints, enumerate screens (propagating failure), manage each
not-yet-managed layer-zero window on the workspace containing its
midpoint, then trigger an engine refresh. -/
def manageExistingClients (env : Env) (c : OsxConn) (eng : Engine) : EvResult :=
  let c1 := updateKnownAppsAndWindows env c
  let toCheck := c1.windows.map (fun p => (p.1, p.2.bounds.midpoint))
  match screenDetails env with
  | Except.error e => ⟨Except.error e, c1, eng, [OsCall.refreshMaps]⟩
  | Except.ok _screens =>
    let r := manageExistingLoop env toCheck c1 eng
    match r.1 with
    | Except.error e => ⟨Except.error e, r.2.1, r.2.2.1, OsCall.refreshMaps :: r.2.2.2⟩
    | Except.ok _ =>
      if env.refreshOk then
        ⟨Except.ok (), r.2.1, r.2.2.1,
         OsCall.refreshMaps :: r.2.2.2 ++ [OsCall.engineRefresh]⟩
      else
        ⟨Except.error (WmError.custom ("refresh failed")), r.2.1, r.2.2.1,
         OsCall.refreshMaps :: r.2.2.2 ++ [OsCall.engineRefresh]⟩

/-- A fresh connection, as built by OsxConn::new. -/
def freshConn : OsxConn := ⟨[], [], ⟨0, 0⟩⟩

/-- An engine with no managed clients. -/
def freshEngine : Engine := ⟨[], none, []⟩

/-- One step of the system: either an event dispatched through
handle_event, or a direct refresh of the known apps and windows, each
under the OS oracle in force at that moment. -/
inductive WMStep where
  | ev (env : Env) (e : Event)
  | refreshKnown (env : Env)

/-- The oracle a step runs under. -/
def WMStep.env : WMStep → Env
  | WMStep.ev env _ => env
  | WMStep.refreshKnown env => env

/-- Apply one step to the connection and engine. -/
def runStep (s : WMStep) (p : OsxConn × Engine) : OsxConn × Engine :=
  match s with
  | WMStep.ev env e =>
    let r := handleEvent env p.1 p.2 e
    (r.conn, r.engine)
  | WMStep.refreshKnown env => (updateKnownAppsAndWindows env p.1, p.2)

/-- Apply a sequence of steps. -/
def runSteps (steps : List WMStep) (p : OsxConn × Engine) : OsxConn × Engine :=
  steps.foldl (fun q s => runStep s q) p

/-- The map invariant of section 3 of the specification: every window in
the window map has its owner pid present in the application map. -/
def connInv (c : OsxConn) : Bool :=
  c.windows.all (fun p => (lookupApp c.apps p.2.owner_pid).isSome)

/-- An oracle under which a refresh can re-establish the map invariant:
every accessible on-screen window is owned by a regular-activation running
process whose application record construction succeeds. -/
def goodEnv (env : Env) : Bool :=
  (currentWindows env).all
    (fun w => env.runningApps.contains w.owner_pid && env.tryNewAppOk w.owner_pid)

/-- Baseline oracle for concrete scenarios: empty system, every call
succeeds. -/
def baseEnv : Env where
  runningApps := []
  tryNewAppOk := fun _ => true
  appName := fun _ => "app"
  winList := []
  axResolvable := fun _ => true
  euiEnabled := fun _ => false
  setEuiOk := fun _ _ => true
  setPosOk := fun _ => true
  setSizeOk := fun _ => true
  raiseOk := fun _ => true
  displaysOk := true
  displays := []
  warpCursorOk := true
  focusedAxWin := fun _ => none
  manageOk := fun _ => true
  unmanageOk := fun _ => true
  modifyOk := true
  refreshOk := true

theorem containsWin_of_lookup {ws : List (WinId × OsxWindow)} {id : WinId}
    {w : OsxWindow} (hw : lookupWin ws id = some w) :
    containsWin ws id = true := by
  simp [containsWin, hw]

theorem lookupWin_setWin {ws : List (WinId × OsxWindow)} {id : WinId}
    {w : OsxWindow} (hw : lookupWin ws id = some w) (w2 : OsxWindow) :
    lookupWin (setWin ws id w2) id = some w2 := by
  induction ws with
  | nil => simp [lookupWin] at hw
  | cons p rest ih =>
    by_cases h : p.1 = id
    · simp [lookupWin, setWin, List.find?, h]
    · have hb : (p.1 == id) = false := beq_eq_false_iff_ne.mpr h
      have hw2 : lookupWin rest id = some w := by
        simpa [lookupWin, List.find?, hb] using hw
      simpa [lookupWin, setWin, List.find?, hb] using ih hw2

theorem withSuppressedAnimations_found (env : Env) (c : OsxConn) (id : WinId)
    (f : OsxWindow → Except WmError Unit × OsxWindow × List OsCall)
    (w : OsxWindow) (a : OsxApp)
    (hw : lookupWin c.windows id = some w)
    (ha : lookupApp c.apps w.owner_pid = some a) :
    withSuppressedAnimations env c id f =
      ⟨(f w).1, { c with windows := setWin c.windows id (f w).2.1 },
        OsCall.readEui w.owner_pid (env.euiEnabled w.owner_pid)
          :: (if env.euiEnabled w.owner_pid then
                [OsCall.writeEui w.owner_pid false (env.setEuiOk w.owner_pid false)]
              else [])
          ++ (f w).2.2
          ++ (if env.euiEnabled w.owner_pid && env.setEuiOk w.owner_pid false then
                [OsCall.writeEui w.owner_pid true (env.setEuiOk w.owner_pid true)]
              else [])⟩ := by
  have hc : containsWin c.windows id = true := containsWin_of_lookup hw
  unfold withSuppressedAnimations
  simp [hc, hw, ha]

/-- C1: for every position_client or hide_client call on a window present
in the window map whose owning app is present in the app map, the
operation reads the enhanced-user-interface flag, writes it to false if it
was enabled, makes no re-enable attempt when that disabling write fails,
then runs the inner positioning calls, writes the flag back to true
exactly when it was enabled and the disable succeeded - regardless of the
inner outcome, ignoring the write error - and returns exactly the result
of the inner operation. -/
theorem suppressed_animation_protocol (env : Env) (c : OsxConn) (id : WinId)
    (r : Rect) (w : OsxWindow) (a : OsxApp)
    (hw : lookupWin c.windows id = some w)
    (ha : lookupApp c.apps w.owner_pid = some a) :
    ((positionClient env c id r).trace =
      OsCall.readEui w.owner_pid (env.euiEnabled w.owner_pid)
        :: (if env.euiEnabled w.owner_pid then
              [OsCall.writeEui w.owner_pid false (env.setEuiOk w.owner_pid false)]
            else [])
        ++ (if env.setPosOk w.win_id then
              [OsCall.setPos w.win_id r.x r.y true,
               OsCall.setSize w.win_id r.w r.h (env.setSizeOk w.win_id)]
            else [OsCall.setPos w.win_id r.x r.y false])
        ++ (if env.euiEnabled w.owner_pid && env.setEuiOk w.owner_pid false then
              [OsCall.writeEui w.owner_pid true (env.setEuiOk w.owner_pid true)]
            else []))
  ∧ ((positionClient env c id r).res =
      if env.setPosOk w.win_id then
        if env.setSizeOk w.win_id then Except.ok ()
        else Except.error (WmError.custom ("unable to set size attr"))
      else Except.error (WmError.custom ("unable to set position attr")))
  ∧ ((hideClient env c id).trace =
      OsCall.readEui w.owner_pid (env.euiEnabled w.owner_pid)
        :: (if env.euiEnabled w.owner_pid then
              [OsCall.writeEui w.owner_pid false (env.setEuiOk w.owner_pid false)]
            else [])
        ++ [OsCall.setPos w.win_id c.hide_pt.x c.hide_pt.y (env.setPosOk w.win_id)]
        ++ (if env.euiEnabled w.owner_pid && env.setEuiOk w.owner_pid false then
              [OsCall.writeEui w.owner_pid true (env.setEuiOk w.owner_pid true)]
            else []))
  ∧ ((hideClient env c id).res =
      if env.setPosOk w.win_id then Except.ok ()
      else Except.error (WmError.custom ("unable to set position attr"))) := by
  refine ⟨?_, ?_, ?_, ?_⟩
  · unfold positionClient
    rw [withSuppressedAnimations_found env c id _ w a hw ha]
    cases hsp : env.setPosOk w.win_id <;> cases hss : env.setSizeOk w.win_id <;>
      simp [hsp, hss]
  · unfold positionClient
    rw [withSuppressedAnimations_found env c id _ w a hw ha]
    cases hsp : env.setPosOk w.win_id <;> cases hss : env.setSizeOk w.win_id <;>
      simp [hsp, hss]
  · unfold hideClient
    rw [withSuppressedAnimations_found env c id _ w a hw ha]
    cases hsp : env.setPosOk w.win_id <;> simp [hsp]
  · unfold hideClient
    rw [withSuppressedAnimations_found env c id _ w a hw ha]
    cases hsp : env.setPosOk w.win_id <;> simp [hsp]

/-- Oracle for the concrete animation-suppression scenario: the flag is
enabled and every write succeeds. -/
def envC1 : Env := { baseEnv with euiEnabled := fun _ => true }

/-- A concrete layer-zero window owned by pid 77. -/
def w42C1 : OsxWindow := ⟨42, 77, 0, ⟨0, 0, 100, 100⟩, "App", none, 1⟩

/-- A connection tracking that window and its app. -/
def connC1 : OsxConn := ⟨[(77, ⟨77, "App"⟩)], [(42, w42C1)], ⟨0, 0⟩⟩

theorem suppressed_animation_protocol_witness :
    (positionClient envC1 connC1 42 ⟨5, 6, 300, 200⟩).trace =
      [OsCall.readEui 77 true, OsCall.writeEui 77 false true,
       OsCall.setPos 42 5 6 true, OsCall.setSize 42 300 200 true,
       OsCall.writeEui 77 true true]
    ∧ (positionClient envC1 connC1 42 ⟨5, 6, 300, 200⟩).res = Except.ok () := by
  have h := suppressed_animation_protocol envC1 connC1 42 ⟨5, 6, 300, 200⟩ w42C1
    ⟨77, "App"⟩ (by rfl) (by rfl)
  exact ⟨h.1, h.2.1⟩

/-- C5: client_geometry performs no refresh when the id is tracked, and
exactly one refresh otherwise; after that single refresh it returns the
cached bounds when the id has appeared and UnknownClient when it has
not. -/
theorem client_geometry_lookup_retry (env : Env) (c : OsxConn) (X : WinId) :
    (∀ w, lookupWin c.windows X = some w →
        clientGeometry env c X = ⟨Except.ok w.bounds, c, []⟩)
  ∧ (lookupWin c.windows X = none →
        (clientGeometry env c X).trace = [OsCall.refreshMaps]
        ∧ (clientGeometry env c X).conn = updateKnownAppsAndWindows env c
        ∧ (∀ w, lookupWin (updateKnownAppsAndWindows env c).windows X = some w →
             (clientGeometry env c X).res = Except.ok w.bounds)
        ∧ (lookupWin (updateKnownAppsAndWindows env c).windows X = none →
             (clientGeometry env c X).res = Except.error (WmError.unknownClient X))) := by
  constructor
  · intro w hw
    have hc : containsWin c.windows X = true := containsWin_of_lookup hw
    simp [clientGeometry, winProp, hc, hw]
  · intro hnone
    have hc : containsWin c.windows X = false := by simp [containsWin, hnone]
    refine ⟨?_, ?_, ?_, ?_⟩
    · cases h2 : lookupWin (updateKnownAppsAndWindows env c).windows X <;>
        simp [clientGeometry, winProp, hc, h2]
    · cases h2 : lookupWin (updateKnownAppsAndWindows env c).windows X <;>
        simp [clientGeometry, winProp, hc, h2]
    · intro w hw2
      simp [clientGeometry, winProp, hc, hw2]
    · intro h2
      simp [clientGeometry, winProp, hc, h2]

/-- Oracle whose on-screen list contains the concrete window 42. -/
def envC5 : Env := { baseEnv with winList := [w42C1], runningApps := [77] }

theorem client_geometry_lookup_retry_witness :
    clientGeometry envC1 connC1 42 =
      ⟨Except.ok (⟨0, 0, 100, 100⟩ : Rect), connC1, []⟩
  ∧ (clientGeometry envC5 freshConn 42).res = Except.ok (⟨0, 0, 100, 100⟩ : Rect)
  ∧ (clientGeometry envC5 freshConn 42).trace = [OsCall.refreshMaps]
  ∧ (clientGeometry envC5 freshConn 99).res = Except.error (WmError.unknownClient 99)
  ∧ (clientGeometry envC5 freshConn 99).trace = [OsCall.refreshMaps] := by
  have h1 := (client_geometry_lookup_retry envC1 connC1 42).1 w42C1 (by rfl)
  have h2 := (client_geometry_lookup_retry envC5 freshConn 42).2 (by rfl)
  have h3 := (client_geometry_lookup_retry envC5 freshConn 99).2 (by rfl)
  exact ⟨h1, h2.2.2.1 w42C1 (by rfl), h2.1, h3.2.2.2 (by rfl), h3.1⟩

/-- C6: set_hide_pt stores the point one pixel inside the bottom-right
corner of the last display after sorting the enumerated displays by
ascending x, and fails with NoScreens when enumeration yields an empty
list. -/
theorem set_hide_pt_bottom_right (env : Env) (c : OsxConn)
    (hd : env.displaysOk = true) :
    (env.displays = [] → setHidePt env c = (Except.error WmError.noScreens, c))
  ∧ (∀ r, (sortByX env.displays).getLast? = some r →
       setHidePt env c =
         (Except.ok (),
          { c with hide_pt := ⟨r.x + i32ofU32 r.w - 1, r.y + i32ofU32 r.h - 1⟩ })) := by
  constructor
  · intro h0
    simp [setHidePt, screenDetails, hd, h0, sortByX]
  · intro r hr
    simp [setHidePt, screenDetails, hd, hr]

/-- Oracle enumerating the two displays of the concrete hide-point
scenario. -/
def envC6 : Env :=
  { baseEnv with displays := [⟨0, 0, 1920, 1080⟩, ⟨1920, 0, 2560, 1440⟩] }

theorem set_hide_pt_bottom_right_witness :
    setHidePt envC6 freshConn =
      (Except.ok (), { freshConn with hide_pt := ⟨4479, 1439⟩ })
  ∧ setHidePt baseEnv freshConn = (Except.error WmError.noScreens, freshConn) := by
  have h1 := (set_hide_pt_bottom_right envC6 freshConn (by rfl)).2
    ⟨1920, 0, 2560, 1440⟩ (by rfl)
  have h2 := (set_hide_pt_bottom_right baseEnv freshConn (by rfl)).1 (by rfl)
  refine ⟨?_, h2⟩
  rw [h1]
  norm_num [i32ofU32]

/-- C7: whenever position_client returns Ok, an immediately following
client_geometry on the same connection returns exactly the requested
rectangle (with no further refresh); and when the underlying position or
size write fails on a tracked window, position_client returns an error. -/
theorem position_client_geometry_roundtrip (env : Env) (c : OsxConn)
    (id : WinId) (r : Rect) :
    ((positionClient env c id r).res = Except.ok () →
       clientGeometry env (positionClient env c id r).conn id =
         ⟨Except.ok r, (positionClient env c id r).conn, []⟩)
  ∧ (∀ w a, lookupWin c.windows id = some w →
       lookupApp c.apps w.owner_pid = some a →
       (env.setPosOk w.win_id = false ∨ env.setSizeOk w.win_id = false) →
       ∃ e, (positionClient env c id r).res = Except.error e) := by
  constructor
  · intro hok
    unfold positionClient withSuppressedAnimations at hok ⊢
    by_cases hc : containsWin c.windows id = true
    · simp only [hc, if_true] at hok ⊢
      cases hl : lookupWin c.windows id with
      | none => simp [hl] at hok
      | some win =>
        cases hla : lookupApp c.apps win.owner_pid with
        | none => simp [hl, hla] at hok
        | some a0 =>
          cases hsp : env.setPosOk win.win_id with
          | false => simp [hl, hla, hsp] at hok
          | true =>
            cases hss : env.setSizeOk win.win_id with
            | false => simp [hl, hla, hsp, hss] at hok
            | true =>
              have hlook := lookupWin_setWin hl { win with bounds := r }
              have hc2 : containsWin (setWin c.windows id { win with bounds := r }) id = true :=
                containsWin_of_lookup hlook
              simp [hl, hla, hsp, hss, clientGeometry, winProp, hc2, hlook]
    · have hc' : containsWin c.windows id = false := by
        simpa using hc
      simp only [hc', Bool.false_eq_true, if_false] at hok ⊢
      cases hl : lookupWin (updateKnownAppsAndWindows env c).windows id with
      | none => simp [hl] at hok
      | some win =>
        cases hla : lookupApp (updateKnownAppsAndWindows env c).apps win.owner_pid with
        | none => simp [hl, hla] at hok
        | some a0 =>
          cases hsp : env.setPosOk win.win_id with
          | false => simp [hl, hla, hsp] at hok
          | true =>
            cases hss : env.setSizeOk win.win_id with
            | false => simp [hl, hla, hsp, hss] at hok
            | true =>
              have hlook := lookupWin_setWin hl { win with bounds := r }
              have hc2 : containsWin
                  (setWin (updateKnownAppsAndWindows env c).windows id
                    { win with bounds := r }) id = true :=
                containsWin_of_lookup hlook
              simp [hl, hla, hsp, hss, clientGeometry, winProp, hc2, hlook]
  · intro w a hw ha hfail
    have h := (suppressed_animation_protocol env c id r w a hw ha).2.1
    rcases hfail with hf | hf
    · exact ⟨WmError.custom ("unable to set position attr"), by simp [h, hf]⟩
    · cases hsp : env.setPosOk w.win_id with
      | false => exact ⟨WmError.custom ("unable to set position attr"), by simp [h, hsp]⟩
      | true => exact ⟨WmError.custom ("unable to set size attr"), by simp [h, hsp, hf]⟩

/-- Oracle where the size write fails for window 42. -/
def envC7 : Env := { baseEnv with setSizeOk := fun _ => false }

theorem position_client_geometry_roundtrip_witness :
    clientGeometry envC1 (positionClient envC1 connC1 42 ⟨5, 6, 300, 200⟩).conn 42 =
      ⟨Except.ok (⟨5, 6, 300, 200⟩ : Rect),
       (positionClient envC1 connC1 42 ⟨5, 6, 300, 200⟩).conn, []⟩
  ∧ ∃ e, (positionClient envC7 connC1 42 ⟨5, 6, 300, 200⟩).res = Except.error e := by
  have h1 := (position_client_geometry_roundtrip envC1 connC1 42 ⟨5, 6, 300, 200⟩).1
    (by rfl)
  have h2 := (position_client_geometry_roundtrip envC7 connC1 42 ⟨5, 6, 300, 200⟩).2
    w42C1 ⟨77, "App"⟩ (by rfl) (by rfl) (Or.inr (by rfl))
  exact ⟨h1, h2⟩

/-- C9 (code bug): kill_client on a tracked window issues the close-button
copy call, but because the source passes the null `button` pointer by
value as the out-parameter of AXUIElementCopyAttributeValue, the obtained
reference is discarded: every call returns the unable-to-get-close-button
error and the press action is never performed.  The UnknownClient half of
the claim does hold: an id still absent after one refresh yields
UnknownClient. -/
theorem kill_client_close_button_bug :
    (killClient envC1 connC1 42).res =
      Except.error (WmError.custom ("unable to get close button"))
  ∧ (killClient envC1 connC1 42).trace = [OsCall.copyCloseButton 42]
  ∧ (∀ b, OsCall.pressClose b ∉ (killClient envC1 connC1 42).trace)
  ∧ (killClient baseEnv freshConn 99).res =
      Except.error (WmError.unknownClient 99) := by
  refine ⟨by rfl, by rfl, ?_, by rfl⟩
  intro b hmem
  rw [show (killClient envC1 connC1 42).trace = [OsCall.copyCloseButton 42] from rfl]
    at hmem
  simp at hmem

theorem connInv_lookup {c : OsxConn} {id : WinId} {w : OsxWindow}
    (hinv : connInv c = true) (hw : lookupWin c.windows id = some w) :
    (lookupApp c.apps w.owner_pid).isSome = true := by
  unfold lookupWin at hw
  cases hf : c.windows.find? (fun p => p.1 == id) with
  | none => simp [hf] at hw
  | some p =>
    have hmem : p ∈ c.windows := List.mem_of_find?_eq_some hf
    have hall := (List.all_eq_true.mp hinv) p hmem
    simp [hf] at hw
    simpa [hw] using hall

/-- C10: focus_client on a tracked window whose owner pid is absent from
the app map panics (unwrap of None) instead of returning an error, also
when reached through warp_pointer with a non-root id; and focus_client
cannot panic when every tracked window - in the map it consults, before
and after the potential refresh - has its owner pid present in the app
map. -/
theorem focus_client_panic_characterisation (env : Env) (c : OsxConn)
    (id : WinId) (w : OsxWindow) (x y : Int)
    (hw : lookupWin c.windows id = some w)
    (ha : lookupApp c.apps w.owner_pid = none)
    (hroot : id ≠ 0)
    (hwarp : env.warpCursorOk = true) :
    focusClient env c id = none
  ∧ warpPointer env c id x y = none
  ∧ (∀ c2 : OsxConn, connInv c2 = true →
       connInv (updateKnownAppsAndWindows env c2) = true →
       (focusClient env c2 id).isSome = true) := by
  have hc : containsWin c.windows id = true := containsWin_of_lookup hw
  have hfc : focusClient env c id = none := by
    simp [focusClient, hc, hw, ha]
  refine ⟨hfc, ?_, ?_⟩
  · have hne : (id == 0) = false := by
      simpa using hroot
    have hwp : winProp env c id (fun w => w.bounds) = ⟨Except.ok w.bounds, c, []⟩ := by
      simp [winProp, hc, hw]
    simp [warpPointer, hne, hwp, hwarp, hfc]
  · intro c2 h1 h2
    by_cases hc2 : containsWin c2.windows id = true
    · obtain ⟨w2, hw2⟩ : ∃ w2, lookupWin c2.windows id = some w2 := by
        rcases h : lookupWin c2.windows id with _ | w2
        · simp [containsWin, h] at hc2
        · exact ⟨w2, rfl⟩
      have happ := connInv_lookup h1 hw2
      rcases happ2 : lookupApp c2.apps w2.owner_pid with _ | a2
      · simp [happ2] at happ
      · cases hr : env.raiseOk w2.win_id <;>
          simp [focusClient, hc2, hw2, happ2, hr]
    · have hc2f : containsWin c2.windows id = false := by simpa using hc2
      rcases h : lookupWin (updateKnownAppsAndWindows env c2).windows id with _ | w2
      · simp [focusClient, hc2f, h]
      · have happ := connInv_lookup h2 h
        rcases happ2 : lookupApp (updateKnownAppsAndWindows env c2).apps w2.owner_pid
          with _ | a2
        · simp [happ2] at happ
        · cases hr : env.raiseOk w2.win_id <;>
            simp [focusClient, hc2f, h, happ2, hr]

/-- A connection tracking window 42 while its owning app is missing from
the app map. -/
def connC10 : OsxConn := ⟨[], [(42, w42C1)], ⟨0, 0⟩⟩

theorem focus_client_panic_witness :
    focusClient envC5 connC10 42 = none
  ∧ warpPointer envC5 connC10 42 1 2 = none
  ∧ (focusClient envC5 connC1 42).isSome = true := by
  have h := focus_client_panic_characterisation envC5 connC10 42 w42C1 1 2
    (by rfl) (by rfl) (by decide) (by rfl)
  exact ⟨h.1, h.2.1, h.2.2 connC1 (by rfl) (by rfl)⟩

theorem memNat_append_single (j : Nat) (l : List Nat) (i : Nat) :
    memNat j (l ++ [i]) = (memNat j l || i == j) := by
  induction l with
  | nil => simp [memNat]
  | cons a rest ih => simp [memNat, ih, Bool.or_assoc]

theorem memNat_insertId_self (i : WinId) (l : List WinId) :
    memNat i (insertId i l) = true := by
  unfold insertId
  cases h : memNat i l with
  | true => simpa using h
  | false => simp [memNat_append_single]

theorem memNat_insertId_mono {j i : WinId} {l : List WinId}
    (h : memNat j l = true) :
    memNat j (insertId i l) = true := by
  unfold insertId
  cases hm : memNat i l <;> simp [memNat_append_single, h]

theorem memNat_foldl_insert {j : WinId} (ids : List WinId) (s : List WinId)
    (h : j ∈ ids ∨ memNat j s = true) :
    memNat j (ids.foldl (fun acc i => insertId i acc) s) = true := by
  induction ids generalizing s with
  | nil =>
    rcases h with h | h
    · simp at h
    · simpa using h
  | cons i rest ih =>
    simp only [List.foldl_cons]
    apply ih
    rcases h with h | h
    · rcases List.mem_cons.mp h with h | h
      · right
        rw [h]
        exact memNat_insertId_self i s
      · left; exact h
    · right; exact memNat_insertId_mono h

theorem lastId_mem {l : List WinId} (h : l ≠ []) : lastId l ∈ l := by
  induction l with
  | nil => simp at h
  | cons a rest ih =>
    cases rest with
    | nil => simp [lastId]
    | cons b r2 =>
      have := ih (by simp)
      simp [lastId] at this ⊢
      tauto

theorem manageAll_ok (env : Env) (ids : List WinId) (eng : Engine)
    (h : ∀ i ∈ ids, env.manageOk i = true) :
    manageAll env ids eng =
      (Except.ok (),
       ⟨ids.foldl (fun acc i => insertId i acc) eng.clientSet,
        eng.current, eng.screens⟩,
       ids.map OsCall.manage) := by
  induction ids generalizing eng with
  | nil => simp [manageAll]
  | cons i rest ih =>
    have hi : env.manageOk i = true := h i (by simp)
    have hrest : ∀ j ∈ rest, env.manageOk j = true := fun j hj => h j (by simp [hj])
    simp [manageAll, hi, ih _ hrest]

theorem unmanageAll_ok (env : Env) (ids : List WinId) (eng : Engine)
    (h : ∀ i ∈ ids, env.unmanageOk i = true) :
    (unmanageAll env ids eng).1 = Except.ok ()
  ∧ (unmanageAll env ids eng).2.2 = ids.map OsCall.unmanage := by
  induction ids generalizing eng with
  | nil => simp [unmanageAll]
  | cons i rest ih =>
    have hi : env.unmanageOk i = true := h i (by simp)
    have hrest : ∀ j ∈ rest, env.unmanageOk j = true := fun j hj => h j (by simp [hj])
    have h2 := ih { eng with
      clientSet := eng.clientSet.filter (fun j => !(j == i))
      current := if eng.current == some i then none else eng.current } hrest
    simp at h2
    simp [unmanageAll, hi, h2.1, h2.2]

/-- C3: handle_event on WindowCreated snapshots the tracked ids, refreshes,
and diffs; with an empty diff it returns Ok and leaves the engine
unchanged; otherwise (given the engine manage calls succeed) it manages
every new id in order and then focuses the last of them. -/
theorem window_created_new_window_diff (env : Env) (c : OsxConn) (eng : Engine)
    (pid : Pid)
    (hman : ∀ i ∈ newWindowIds env c pid, env.manageOk i = true)
    (hmod : env.modifyOk = true) :
    (newWindowIds env c pid = [] →
       handleEvent env c eng (Event.windowCreated pid) =
         ⟨Except.ok (), updateKnownAppsAndWindows env c, eng, [OsCall.refreshMaps]⟩)
  ∧ (newWindowIds env c pid ≠ [] →
       handleEvent env c eng (Event.windowCreated pid) =
         ⟨Except.ok (), updateKnownAppsAndWindows env c,
          ⟨(newWindowIds env c pid).foldl (fun acc i => insertId i acc) eng.clientSet,
           some (lastId (newWindowIds env c pid)), eng.screens⟩,
          OsCall.refreshMaps :: (newWindowIds env c pid).map OsCall.manage
            ++ [OsCall.focusClient (lastId (newWindowIds env c pid))]⟩) := by
  constructor
  · intro h0
    simp [handleEvent, handleNewWindowForPid, h0]
  · intro hne
    have hempty : (newWindowIds env c pid).isEmpty = false := by
      cases h : newWindowIds env c pid with
      | nil => exact absurd h hne
      | cons a l => simp
    have hm := manageAll_ok env (newWindowIds env c pid) eng hman
    have hfoc : memNat (lastId (newWindowIds env c pid))
        ((newWindowIds env c pid).foldl (fun acc i => insertId i acc) eng.clientSet) =
        true :=
      memNat_foldl_insert _ _ (Or.inl (lastId_mem hne))
    simp [handleEvent, handleNewWindowForPid, hempty, hm, modifyRefreshFocus, hfoc, hmod]

/-- Windows of the concrete new-window scenario. -/
def w10C3 : OsxWindow := ⟨10, 5, 0, ⟨0, 0, 50, 50⟩, "A", none, 110⟩

def w11C3 : OsxWindow := ⟨11, 5, 0, ⟨0, 0, 50, 50⟩, "A", none, 111⟩

def w42C3 : OsxWindow := ⟨42, 77, 0, ⟨0, 0, 50, 50⟩, "B", none, 142⟩

def w43C3 : OsxWindow := ⟨43, 77, 0, ⟨0, 0, 50, 50⟩, "B", none, 143⟩

/-- Oracle reporting ids 10, 11, 42, 43 on screen, with 42 and 43 owned by
pid 77. -/
def envC3 : Env :=
  { baseEnv with winList := [w10C3, w11C3, w42C3, w43C3], runningApps := [5, 77] }

/-- Connection tracking only ids 10 and 11 before the event. -/
def connC3 : OsxConn :=
  ⟨[(5, ⟨5, "A"⟩), (77, ⟨77, "B"⟩)], [(10, w10C3), (11, w11C3)], ⟨0, 0⟩⟩

theorem window_created_new_window_diff_witness :
    newWindowIds envC3 connC3 77 = [42, 43]
  ∧ handleEvent envC3 connC3 freshEngine (Event.windowCreated 77) =
      ⟨Except.ok (), updateKnownAppsAndWindows envC3 connC3,
       ⟨[42, 43], some 43, []⟩,
       [OsCall.refreshMaps, OsCall.manage 42, OsCall.manage 43,
        OsCall.focusClient 43]⟩ := by
  have h := (window_created_new_window_diff envC3 connC3 freshEngine 77
    (by decide) (by rfl)).2 (by decide)
  refine ⟨by rfl, ?_⟩
  rw [h]
  rfl

/-- C4: handle_event on AppTerminated removes the app entry for the pid,
removes every window record owned by it, unmanages exactly those windows
in map order, and leaves entries for all other pids unchanged. -/
theorem app_terminated_cleanup (env : Env) (c : OsxConn) (eng : Engine)
    (pid : Pid)
    (hun : ∀ i ∈ terminatedIds c pid, env.unmanageOk i = true) :
    (handleEvent env c eng (Event.appTerminated pid)).res = Except.ok ()
  ∧ (handleEvent env c eng (Event.appTerminated pid)).conn =
      { c with apps := c.apps.filter (fun p => !(p.1 == pid)),
               windows := c.windows.filter (fun p => !(p.2.owner_pid == pid)) }
  ∧ (handleEvent env c eng (Event.appTerminated pid)).trace =
      (terminatedIds c pid).map OsCall.unmanage := by
  have h := unmanageAll_ok env (terminatedIds c pid) eng hun
  exact ⟨by simp [handleEvent, clearTerminatedAppState, h.1],
         by simp [handleEvent, clearTerminatedAppState],
         by simp [handleEvent, clearTerminatedAppState, h.2]⟩

/-- Window 44 of the terminated-app scenario, owned by pid 88. -/
def w44C4 : OsxWindow := ⟨44, 88, 0, ⟨0, 0, 50, 50⟩, "C", none, 144⟩

/-- Connection with apps 77 and 88 and windows 42, 43 owned by 77 and 44
owned by 88. -/
def connC4 : OsxConn :=
  ⟨[(77, ⟨77, "B"⟩), (88, ⟨88, "C"⟩)],
   [(42, w42C3), (43, w43C3), (44, w44C4)], ⟨0, 0⟩⟩

theorem app_terminated_cleanup_witness :
    (handleEvent baseEnv connC4 freshEngine (Event.appTerminated 77)).res =
      Except.ok ()
  ∧ (handleEvent baseEnv connC4 freshEngine (Event.appTerminated 77)).conn =
      ⟨[(88, ⟨88, "C"⟩)], [(44, w44C4)], ⟨0, 0⟩⟩
  ∧ (handleEvent baseEnv connC4 freshEngine (Event.appTerminated 77)).trace =
      [OsCall.unmanage 42, OsCall.unmanage 43] := by
  have h := app_terminated_cleanup baseEnv connC4 freshEngine 77 (by decide)
  exact ⟨h.1, h.2.1.trans (by rfl), h.2.2.trans (by rfl)⟩

/-- C8 (amended): existing_clients refreshes and then returns the ids of
all accessible windows of the on-screen list regardless of their layer, so
after manage_existing_clients it returns exactly the accessible window
set; the layer-zero restriction governs only which windows get managed,
not what existing_clients returns. -/
theorem existing_clients_after_manage (env : Env) (c : OsxConn) (eng : Engine) :
    (existingClients env (manageExistingClients env c eng).conn).res =
      Except.ok ((currentWindows env).map (fun w => w.win_id)) := by
  simp [existingClients, updateKnownAppsAndWindows]

/-- An accessible on-screen window living on layer 1. -/
def wLayer1 : OsxWindow := ⟨5, 9, 1, ⟨0, 0, 60, 60⟩, "D", none, 105⟩

/-- Oracle reporting only that layer-1 window. -/
def envC8 : Env :=
  { baseEnv with
      winList := [wLayer1]
      runningApps := [9]
      displays := [⟨0, 0, 1920, 1080⟩] }

theorem existing_clients_layer_counterexample :
    (existingClients envC8
        (manageExistingClients envC8 freshConn freshEngine).conn).res =
      Except.ok [5]
  ∧ ((currentWindows envC8).filter (fun w => w.window_layer == 0)).map
      (fun w => w.win_id) = []
  ∧ (manageExistingClients envC8 freshConn freshEngine).engine.clientSet = []
  ∧ (Except.ok [5] : Except WmError (List WinId)) ≠ Except.ok [] := by
  refine ⟨by rfl, by rfl, by rfl, ?_⟩
  intro h
  simp at h

theorem lookupApp_append_isSome {l l2 : List (Pid × OsxApp)} {q : Pid}
    (h : (lookupApp l q).isSome = true) :
    (lookupApp (l ++ l2) q).isSome = true := by
  induction l with
  | nil => simp [lookupApp] at h
  | cons p rest ih =>
    cases hb : (p.1 == q) with
    | true => simp [lookupApp, List.find?, hb]
    | false =>
      have h2 : (lookupApp rest q).isSome = true := by
        simpa [lookupApp, List.find?, hb] using h
      simpa [lookupApp, List.find?, hb] using ih h2

theorem lookupApp_append_right {l : List (Pid × OsxApp)} {q : Pid}
    (h : lookupApp l q = none) (a : OsxApp) :
    lookupApp (l ++ [(q, a)]) q = some a := by
  induction l with
  | nil => simp [lookupApp, List.find?]
  | cons p rest ih =>
    cases hb : (p.1 == q) with
    | true => simp [lookupApp, List.find?, hb] at h
    | false =>
      have h2 : lookupApp rest q = none := by
        simpa [lookupApp, List.find?, hb] using h
      simpa [lookupApp, List.find?, hb] using ih h2

theorem addNewApps_mono (env : Env) (pids : List Pid) :
    ∀ (acc : List (Pid × OsxApp)) (q : Pid), (lookupApp acc q).isSome = true →
    (lookupApp (addNewApps env pids acc) q).isSome = true := by
  induction pids with
  | nil => intro acc q h; simpa [addNewApps] using h
  | cons p rest ih =>
    intro acc q h
    cases h1 : (lookupApp acc p).isSome with
    | true => simpa [addNewApps, h1] using ih acc q h
    | false =>
      cases h2 : env.tryNewAppOk p with
      | true =>
        simpa [addNewApps, h1, h2] using
          ih (acc ++ [(p, ⟨p, env.appName p⟩)]) q (lookupApp_append_isSome h)
      | false => simpa [addNewApps, h1, h2] using ih acc q h

theorem addNewApps_mem (env : Env) (pids : List Pid) :
    ∀ (acc : List (Pid × OsxApp)) (q : Pid), q ∈ pids →
    env.tryNewAppOk q = true →
    (lookupApp (addNewApps env pids acc) q).isSome = true := by
  induction pids with
  | nil => intro acc q hq _; simp at hq
  | cons p rest ih =>
    intro acc q hq hok
    cases h1 : (lookupApp acc p).isSome with
    | true =>
      rcases List.mem_cons.mp hq with he | hm
      · subst he
        simpa [addNewApps, h1] using addNewApps_mono env rest acc q h1
      · simpa [addNewApps, h1] using ih acc q hm hok
    | false =>
      rcases List.mem_cons.mp hq with he | hm
      · subst he
        have hnone : lookupApp acc q = none := by
          cases hl : lookupApp acc q
          · rfl
          · rw [hl] at h1; simp at h1
        have hsome : (lookupApp (acc ++ [(q, ⟨q, env.appName q⟩)]) q).isSome = true := by
          rw [lookupApp_append_right hnone]
          rfl
        simpa [addNewApps, h1, hok] using
          addNewApps_mono env rest (acc ++ [(q, ⟨q, env.appName q⟩)]) q hsome
      · cases h2 : env.tryNewAppOk p with
        | true =>
          simpa [addNewApps, h1, h2] using
            ih (acc ++ [(p, ⟨p, env.appName p⟩)]) q hm hok
        | false => simpa [addNewApps, h1, h2] using ih acc q hm hok

theorem update_establishes_inv (env : Env) (c : OsxConn)
    (hg : goodEnv env = true) :
    connInv (updateKnownAppsAndWindows env c) = true := by
  unfold connInv updateKnownAppsAndWindows
  rw [List.all_eq_true]
  intro p hp
  simp only [List.mem_map] at hp
  obtain ⟨w, hw, rfl⟩ := hp
  have hgw := (List.all_eq_true.mp hg) w hw
  rw [Bool.and_eq_true] at hgw
  have h1 : env.runningApps.contains w.owner_pid = true := hgw.1
  have h2 : env.tryNewAppOk w.owner_pid = true := hgw.2
  have hmem : w.owner_pid ∈ env.runningApps :=
    List.mem_of_elem_eq_true (by simpa [List.contains] using h1)
  simpa using
    addNewApps_mem env env.runningApps
      (c.apps.filter (fun p => p.1 ∈ env.runningApps)) w.owner_pid hmem h2

theorem connInv_filter_windows {c : OsxConn} (hinv : connInv c = true)
    (p : WinId × OsxWindow → Bool) :
    connInv { c with windows := c.windows.filter p } = true := by
  unfold connInv at hinv ⊢
  rw [List.all_eq_true] at hinv ⊢
  intro x hx
  exact hinv x (List.mem_of_mem_filter hx)

theorem lookupApp_filter_ne {l : List (Pid × OsxApp)} {q pid : Pid}
    (h : (lookupApp l q).isSome = true) (hne : q ≠ pid) :
    (lookupApp (l.filter (fun p => !(p.1 == pid))) q).isSome = true := by
  induction l with
  | nil => simp [lookupApp] at h
  | cons p rest ih =>
    cases hb : (p.1 == q) with
    | true =>
      have hp : p.1 = q := by simpa using hb
      have hbp : (p.1 == pid) = false := by
        rw [hp]
        simpa using hne
      simp [List.filter_cons, hbp, lookupApp, List.find?, hb]
    | false =>
      have h2 := ih (by simpa [lookupApp, List.find?, hb] using h)
      cases hbp : (p.1 == pid) with
      | true => simpa [List.filter_cons, hbp] using h2
      | false => simpa [List.filter_cons, hbp, lookupApp, List.find?, hb] using h2

theorem clearTerminated_preserves {env : Env} {c : OsxConn} {eng : Engine}
    {pid : Pid} (hinv : connInv c = true) :
    connInv (clearTerminatedAppState env c eng pid).conn = true := by
  unfold clearTerminatedAppState connInv
  rw [List.all_eq_true]
  intro x hx
  simp only [] at hx
  have hxmem : x ∈ c.windows := List.mem_of_mem_filter hx
  have hxf := List.of_mem_filter hx
  have hne : x.2.owner_pid ≠ pid := by simpa using hxf
  have h0 := (List.all_eq_true.mp hinv) x hxmem
  simpa using lookupApp_filter_ne (by simpa using h0) hne

theorem focusActiveAppWindow_conn (env : Env) (c : OsxConn) (eng : Engine)
    (pid : Pid) :
    (focusActiveAppWindow env c eng pid).conn =
      if (lookupApp c.apps pid).isSome then c
      else updateKnownAppsAndWindows env c := by
  unfold focusActiveAppWindow
  cases h : (lookupApp c.apps pid).isSome <;>
    simp only [h, Bool.false_eq_true, if_false, if_true] <;>
    (repeat' split) <;> simp

theorem handleNewWindowForPid_conn (env : Env) (c : OsxConn) (eng : Engine)
    (pid : Pid) :
    (handleNewWindowForPid env c eng pid).conn = updateKnownAppsAndWindows env c := by
  cases hn : newWindowIds env c pid with
  | nil => simp [handleNewWindowForPid, hn]
  | cons a l =>
    simp only [handleNewWindowForPid, hn]
    cases hm : (manageAll env (a :: l) eng).1 <;> simp [hm]

theorem handleEvent_preserves (env : Env) (c : OsxConn) (eng : Engine)
    (e : Event) (hg : goodEnv env = true) (hinv : connInv c = true) :
    connInv (handleEvent env c eng e).conn = true := by
  cases e with
  | appActivated pid =>
    show connInv (focusActiveAppWindow env c eng pid).conn = true
    rw [focusActiveAppWindow_conn]
    cases h : (lookupApp c.apps pid).isSome
    · simpa [h] using update_establishes_inv env c hg
    · simpa [h] using hinv
  | appLaunched pid =>
    show connInv (focusActiveAppWindow env c eng pid).conn = true
    rw [focusActiveAppWindow_conn]
    cases h : (lookupApp c.apps pid).isSome
    · simpa [h] using update_establishes_inv env c hg
    · simpa [h] using hinv
  | focusedWindowChanged pid =>
    show connInv (focusActiveAppWindow env c eng pid).conn = true
    rw [focusActiveAppWindow_conn]
    cases h : (lookupApp c.apps pid).isSome
    · simpa [h] using update_establishes_inv env c hg
    · simpa [h] using hinv
  | appTerminated pid => exact clearTerminated_preserves hinv
  | uiElementDestroyed id =>
    show connInv (clearClosedWindowState env c eng id).conn = true
    unfold clearClosedWindowState
    simpa using connInv_filter_windows hinv (fun p => !(p.1 == id))
  | windowCreated pid =>
    show connInv (handleNewWindowForPid env c eng pid).conn = true
    rw [handleNewWindowForPid_conn]
    exact update_establishes_inv env c hg
  | appHidden pid => simpa [handleEvent] using hinv
  | appUnhidden pid => simpa [handleEvent] using hinv
  | appDeactivated pid => simpa [handleEvent] using hinv
  | windowMiniturized id => simpa [handleEvent] using hinv
  | windowDeminiturized id => simpa [handleEvent] using hinv
  | windowMoved id => simpa [handleEvent] using hinv
  | windowResized id => simpa [handleEvent] using hinv

theorem runSteps_preserves (steps : List WMStep) :
    ∀ p : OsxConn × Engine, connInv p.1 = true →
    (∀ s ∈ steps, goodEnv s.env = true) →
    connInv (runSteps steps p).1 = true := by
  induction steps with
  | nil => intro p hp _; simpa [runSteps] using hp
  | cons s rest ih =>
    intro p hp hgood
    have hs : goodEnv s.env = true := hgood s (by simp)
    have hrest : ∀ t ∈ rest, goodEnv t.env = true := fun t ht => hgood t (by simp [ht])
    have hstep : connInv (runStep s p).1 = true := by
      cases s with
      | ev env e => exact handleEvent_preserves env p.1 p.2 e hs hp
      | refreshKnown env => exact update_establishes_inv env p.1 hs
    simpa [runSteps] using ih (runStep s p) hstep hrest

/-- C2 (amended): starting from a fresh connection, every sequence of
handle_event calls and refreshes preserves the window-owner invariant
provided the oracle of each step is good: every accessible on-screen
window is owned by a regular-activation running process whose app-record
construction succeeds.  Without that proviso the invariant fails, because
the refresh keeps windows whose owner has no app entry rather than
re-establishing the correspondence. -/
theorem window_owner_invariant_sequences (steps : List WMStep)
    (hgood : ∀ s ∈ steps, goodEnv s.env = true) :
    connInv (runSteps steps (freshConn, freshEngine)).1 = true :=
  runSteps_preserves steps (freshConn, freshEngine) (by rfl) hgood

theorem window_owner_invariant_sequences_witness :
    connInv (runSteps [WMStep.ev envC3 (Event.windowCreated 77),
        WMStep.refreshKnown envC3] (freshConn, freshEngine)).1 = true := by
  apply window_owner_invariant_sequences
  intro s hs
  simp only [List.mem_cons, List.not_mem_nil, or_false] at hs
  rcases hs with rfl | rfl <;> rfl

/-- Oracle under which the app record for pid 77 cannot be constructed
while its window 42 is resolvable. -/
def envBad : Env :=
  { baseEnv with
      winList := [w42C3]
      runningApps := [77]
      tryNewAppOk := fun _ => false }

theorem window_owner_invariant_counterexample :
    connInv (runSteps [WMStep.ev envBad (Event.windowCreated 77)]
        (freshConn, freshEngine)).1 = false
  ∧ lookupWin (runSteps [WMStep.ev envBad (Event.windowCreated 77)]
        (freshConn, freshEngine)).1.windows 42 = some w42C3
  ∧ lookupApp (runSteps [WMStep.ev envBad (Event.windowCreated 77)]
        (freshConn, freshEngine)).1.apps 77 = none := by
  exact ⟨by rfl, by rfl, by rfl⟩
